import Mathlib

/-!
Verification development for the forex screener/ranker (`Scanner.py`).

The bar series handed around by the program is modelled as a `List Bar`
(ordered oldest → newest), with prices and tick volumes as rationals.
Python/pandas behaviour is modelled explicitly:
  * an out-of-range `iloc` access raises and is modelled by
    `Except.error ScanError.indexError`;
  * a pandas `NaN` produced by a rolling window that is longer than the
    available history is modelled by `Option.none` (it is a value that
    flows on, not a signalled error);
  * the price columns are `numpy.float64`, whose division by zero does
    NOT raise: it silently yields `±inf` (or `nan` for `0/0`) with only a
    `RuntimeWarning`, modelled by the non-finite `PyFloat` values.
Python's stable `list.sort` is modelled by `List.insertionSort` (any two
stable sorts with respect to the same total preorder agree).
-/

namespace ForexScanner

/-- One OHLCV bar.  Field `open_` models the `open` column (Lean reserves
the word `open`). -/
structure Bar where
  open_ : ℚ
  high : ℚ
  low : ℚ
  close : ℚ
  tick_volume : ℚ
deriving DecidableEq, Repr

instance : Inhabited Bar := ⟨⟨0, 0, 0, 0, 0⟩⟩

/-- Error kinds a Python-level evaluation of the scanner can signal. -/
inductive ScanError where
  | indexError
  | valueError
deriving DecidableEq, Repr

/-- A `numpy.float64` result value: finite, `±inf`, or `nan`.  Division
of numpy floats by zero does not raise — it produces one of the
non-finite values and execution continues. -/
inductive PyFloat where
  | finite (q : ℚ)
  | posInf
  | negInf
  | nan
deriving DecidableEq, Repr

/-- Tail part of the `true_range` column of `calculate_atr`: each bar's true range
is `max(high − low, |high − prev_close|, |low − prev_close|)`. -/
def trueRangesAux (prev : Bar) : List Bar → List ℚ
  | [] => []
  | b :: rest =>
      max (b.high - b.low) (max |b.high - prev.close| |b.low - prev.close|) ::
        trueRangesAux b rest

/-- The `true_range` column of `calculate_atr`.  For the very first bar the two
`prev_close` differences are `NaN` (`shift(1)`), and the pandas row-wise
`max` skips `NaN`, so the first true range degrades to `high − low`. -/
def trueRanges : List Bar → List ℚ
  | [] => []
  | b :: rest => (b.high - b.low) :: trueRangesAux b rest

/-- Source `calculate_atr(df, period)` from `Scanner.py`.

`df['atr'] = df['true_range'].rolling(window=period).mean()` is `NaN`
(here: `Option.none`) at the last row whenever fewer than `period` rows
exist; otherwise it is the mean of the trailing `period` true ranges.
`iloc[-1]` on an empty frame raises (`indexError`), and pandas rejects a
zero-length rolling window (`valueError`).  Note that the code never
checks for `period + 1` bars: with exactly `period` bars it happily
averages a window that contains the degraded first true range. -/
def calculate_atr (df : List Bar) (period : Nat) : Except ScanError (Option ℚ) :=
  if df.isEmpty then .error .indexError
  else if period = 0 then .error .valueError
  else .ok (if df.length < period then none
            else some (((trueRanges df).drop (df.length - period)).sum / (period : ℚ)))

/-- Source `calculate_price_change(df)` from `Scanner.py`:
`((close.iloc[-1] − close.iloc[0]) / close.iloc[0]) * 100`.
The closes are `numpy.float64` scalars, so a zero first close does NOT
raise: the division silently yields `+inf`/`-inf` by the sign of the
numerator (or `nan` when the numerator is zero too, the `0/0` case), and
multiplying by 100 preserves that; only an empty frame raises, via
`iloc`. -/
def calculate_price_change (df : List Bar) : Except ScanError PyFloat :=
  match df with
  | [] => .error .indexError
  | b0 :: rest =>
      let current_price := (rest.getLastD b0).close
      let previous_price := b0.close
      if previous_price = 0 then
        if 0 < current_price - previous_price then .ok .posInf
        else if current_price - previous_price < 0 then .ok .negInf
        else .ok .nan
      else .ok (.finite ((current_price - previous_price) / previous_price * 100))

/-- Result record of `detect_smart_money`. -/
structure SmartMoneyResult where
  smart_money : Bool
  volume_spike : Bool
  bullish_reversal : Bool
  bearish_reversal : Bool
deriving DecidableEq, Repr

/-- Source `detect_smart_money(df, volume_threshold=1.5, reversal_threshold=0.0003)`
from `Scanner.py`.  The rolling(14) mean of `tick_volume` at the last row
is `NaN` when fewer than 14 rows exist; a comparison against `NaN` is
`False` in Python, so `volume_spike` is `false` then.  `iloc[-2]` raises
on a series of fewer than two bars (`none`). -/
def detect_smart_money (df : List Bar) (volume_threshold : ℚ := 1.5)
    (reversal_threshold : ℚ := 0.0003) : Option SmartMoneyResult :=
  if h : 2 ≤ df.length then
    let volumes := df.map Bar.tick_volume
    let avg_volume : Option ℚ :=
      if df.length < 14 then none
      else some ((volumes.drop (df.length - 14)).sum / 14)
    let current_volume : ℚ := volumes.getLastD 0
    let volume_spike : Bool :=
      match avg_volume with
      | none => false
      | some a => decide (a * volume_threshold < current_volume)
    let current := df.get ⟨df.length - 1, by omega⟩
    let prev := df.get ⟨df.length - 2, by omega⟩
    let bullish_reversal : Bool :=
      decide (current.low ≤ prev.low) &&
        decide (prev.high - reversal_threshold ≤ current.close) &&
        decide (current.open_ < current.close)
    let bearish_reversal : Bool :=
      decide (prev.high ≤ current.high) &&
        decide (current.close ≤ prev.low + reversal_threshold) &&
        decide (current.close < current.open_)
    some ⟨volume_spike && (bullish_reversal || bearish_reversal),
          volume_spike, bullish_reversal, bearish_reversal⟩
  else none

/-- The full OHLC sign-flip mirror of one bar: prices negated, `high` and
`low` swapped, volume untouched. -/
def mirrorBar (b : Bar) : Bar :=
  ⟨-b.open_, -b.low, -b.high, -b.close, b.tick_volume⟩

/-- Mirror an entire series. -/
def mirrorSeries (df : List Bar) : List Bar := df.map mirrorBar

/-- Swap the two reversal flags of a `SmartMoneyResult`. -/
def swapReversals (r : SmartMoneyResult) : SmartMoneyResult :=
  ⟨r.smart_money, r.volume_spike, r.bearish_reversal, r.bullish_reversal⟩

/-- C2 (divergence witness): `calculate_price_change` never signals a
division-by-zero error.  On a series whose first close is 0 it silently
returns `inf` (last close 1 here) or `nan` (first and last close both 0),
because the closes are `numpy.float64` scalars; the error kind the claim
and the spec demand does not exist in the program.  The non-degenerate
half of the claim does hold: with the first close non-zero and equal to
the last close the result is the finite value 0. -/
theorem calculate_price_change_zero_close_is_silent :
    calculate_price_change [⟨0, 2, 0, 0, 5⟩, ⟨1, 2, 0, 1, 5⟩] = Except.ok PyFloat.posInf ∧
    calculate_price_change [⟨0, 0, 0, 0, 1⟩] = Except.ok PyFloat.nan ∧
    calculate_price_change [⟨5, 5, 5, 5, 1⟩] = Except.ok (PyFloat.finite 0) := by
  refine ⟨?_, ?_, ?_⟩ <;> norm_num [calculate_price_change, List.getLastD]

/-- C3 (divergence witness): `calculate_atr` never signals an
insufficient-data error.  With a single bar `(open 1, high 3, low 1,
close 2)` and `period = 1` — fewer than `period + 1` bars — it silently
returns the value 2 computed over truncated history (the first bar's true
range degrades to `high − low`), and with `period = 2` it silently
returns the `NaN` of the rolling mean instead of an error. -/
theorem calculate_atr_insufficient_data_is_silent :
    calculate_atr [⟨1, 3, 1, 2, 10⟩] 1 = Except.ok (some 2) ∧
    calculate_atr [⟨1, 3, 1, 2, 10⟩] 2 = Except.ok none := by
  constructor <;> norm_num [calculate_atr, trueRanges, trueRangesAux]

theorem mirror_le_iff (a b : ℚ) : (-a ≤ -b) ↔ (b ≤ a) := neg_le_neg_iff

theorem mirror_lt_iff (a b : ℚ) : (-a < -b) ↔ (b < a) := neg_lt_neg_iff

theorem mirror_sub_le_iff (a rt c : ℚ) : (-a - rt ≤ -c) ↔ (c ≤ a + rt) := by
  constructor <;> intro h <;> linarith

theorem mirror_le_add_iff (a rt c : ℚ) : (-c ≤ -a + rt) ↔ (a - rt ≤ c) := by
  constructor <;> intro h <;> linarith

set_option maxHeartbeats 1000000 in
/-- C4: mirroring a series (prices negated, `high`/`low` swapped, volume
unchanged) swaps the `bullish_reversal` and `bearish_reversal` outputs of
`detect_smart_money` and leaves `volume_spike` (and hence `smart_money`)
unchanged. -/
theorem detect_smart_money_mirror (df : List Bar) (vt rt : ℚ) :
    detect_smart_money (mirrorSeries df) vt rt =
      (detect_smart_money df vt rt).map swapReversals := by
  by_cases h : 2 ≤ df.length
  · have h' : 2 ≤ (mirrorSeries df).length := by
      simpa [mirrorSeries] using h
    rw [detect_smart_money, detect_smart_money, dif_pos h', dif_pos h]
    have hcomp : Bar.tick_volume ∘ mirrorBar = Bar.tick_volume := funext fun _ => rfl
    simp only [mirrorSeries, List.length_map, List.map_map, hcomp,
      List.get_eq_getElem, List.getElem_map, Option.map_some]
    refine congrArg some ?_
    simp only [mirrorBar, swapReversals, SmartMoneyResult.mk.injEq,
      mirror_le_iff, mirror_lt_iff, mirror_sub_le_iff, mirror_le_add_iff]
    refine ⟨congrArg _ (Bool.or_comm _ _), ?_, ?_, ?_⟩ <;> trivial
  · have h' : ¬ 2 ≤ (mirrorSeries df).length := by
      simpa [mirrorSeries] using h
    rw [detect_smart_money, detect_smart_money, dif_neg h', dif_neg h]
    rfl

/-! Pair selection (`select_top_three_pairs`). -/

/-- Configured thresholds (`thresholds['atr']`, `thresholds['price_change']`). -/
structure Thresholds where
  atr : ℚ
  price_change : ℚ
deriving DecidableEq, Repr

/-- One instrument's entry of the metrics map built by `rank_currencies`. -/
structure InstrumentMetrics where
  atr : ℚ
  price_change : ℚ
  smart_money : Bool
  volume_spike : Bool
  bullish_reversal : Bool
  bearish_reversal : Bool
deriving DecidableEq, Repr

/-- The metrics map: symbol → metrics, insertion ordered (Python dict). -/
abbrev MetricsMap := List (String × InstrumentMetrics)

/-- One scored candidate of `select_top_three_pairs`. -/
structure ScoredPair where
  symbol : String
  score : ℚ
  atr : ℚ
  price_change : ℚ
  smart_money : Bool
deriving DecidableEq, Repr

/-- Python `min` of a nonempty list (0 as junk value on `[]`, never used:
every call site guards against an empty metrics map). -/
def listMin : List ℚ → ℚ
  | [] => 0
  | x :: xs => xs.foldl min x

/-- Python `max` of a nonempty list (0 as junk value on `[]`). -/
def listMax : List ℚ → ℚ
  | [] => 0
  | x :: xs => xs.foldl max x

/-- Python `symbol[:3]`, as a list of characters (Python slicing is by code
point; Lean's byte-based `String` primitives do not reduce in the
kernel, so currency codes are compared as character lists). -/
def baseOf (s : String) : List Char := s.data.take 3

/-- Python `symbol[3:-1] if symbol.endswith('m') else symbol[3:]`. -/
def quoteOf (s : String) : List Char :=
  if s.data.getLast? = some ('m') then (s.data.drop 3).dropLast else s.data.drop 3

/-- Composite score of one instrument:
`0.5·norm_atr + 0.3·norm_price_change (+ 0.2 if smart money)`. -/
def scoreOf (min_atr atr_range min_pc pc_range : ℚ) (m : InstrumentMetrics) : ℚ :=
  let normalized_atr := (m.atr - min_atr) / atr_range
  let normalized_price_change := (|m.price_change| - min_pc) / pc_range
  0.5 * normalized_atr + 0.3 * normalized_price_change +
    (if m.smart_money then 0.2 else 0)

/-- The `pair_scores` list built by the loop of `select_top_three_pairs`:
skip an instrument iff its ATR is below the ATR threshold AND its
absolute price change is below the price-change threshold. -/
def pair_scores_of (t : Thresholds) (min_atr atr_range min_pc pc_range : ℚ) :
    MetricsMap → List ScoredPair
  | [] => []
  | (symbol, m) :: rest =>
      if m.atr < t.atr ∧ |m.price_change| < t.price_change then
        pair_scores_of t min_atr atr_range min_pc pc_range rest
      else
        ⟨symbol, scoreOf min_atr atr_range min_pc pc_range m,
         m.atr, m.price_change, m.smart_money⟩ ::
          pair_scores_of t min_atr atr_range min_pc pc_range rest

/-- The sort order of `pair_scores.sort(key=(score, atr), reverse=True)`:
descending lexicographically by score then ATR. -/
def selRel (a b : ScoredPair) : Prop :=
  b.score < a.score ∨ (b.score = a.score ∧ b.atr ≤ a.atr)

instance : DecidableRel selRel := fun a b => by unfold selRel; infer_instance

instance : IsTotal ScoredPair selRel :=
  ⟨fun a b => by
    unfold selRel
    rcases lt_trichotomy a.score b.score with h | h | h
    · exact Or.inr (Or.inl h)
    · rcases le_total a.atr b.atr with h2 | h2
      · exact Or.inr (Or.inr ⟨h, h2⟩)
      · exact Or.inl (Or.inr ⟨h.symm, h2⟩)
    · exact Or.inl (Or.inl h)⟩

instance : IsTrans ScoredPair selRel :=
  ⟨fun a b c hab hbc => by
    unfold selRel at *
    rcases hab with h1 | ⟨h1, h1'⟩ <;> rcases hbc with h2 | ⟨h2, h2'⟩
    · exact Or.inl (h2.trans h1)
    · exact Or.inl (lt_of_le_of_lt (le_of_eq h2) h1)
    · exact Or.inl (lt_of_lt_of_le h2 (le_of_eq h1))
    · exact Or.inr ⟨h2.trans h1, h2'.trans h1'⟩⟩

/-- The greedy de-clustering walk of `select_top_three_pairs`: pick at
most three candidates whose base and quote currencies are all fresh. -/
def select_loop : List ScoredPair → List ScoredPair → List (List Char) → List ScoredPair
  | [], selected, _ => selected
  | pair :: rest, selected, used_currencies =>
      if 3 ≤ selected.length then selected
      else if baseOf pair.symbol ∉ used_currencies ∧ quoteOf pair.symbol ∉ used_currencies then
        select_loop rest (selected ++ [pair])
          (baseOf pair.symbol :: quoteOf pair.symbol :: used_currencies)
      else select_loop rest selected used_currencies

/-- Source `select_top_three_pairs(pair_volatility, thresholds)` from `Scanner.py`.
Note that `atr_values` / `price_change_values`, and hence the min–max
normalization, are computed over the WHOLE metrics map, before the
threshold filter is applied inside the scoring loop. -/
def select_top_three_pairs (pair_volatility : MetricsMap) (thresholds : Thresholds) :
    List ScoredPair :=
  if pair_volatility.isEmpty then []
  else
    let atr_values := pair_volatility.map (fun e => e.2.atr)
    let price_change_values := pair_volatility.map (fun e => |e.2.price_change|)
    let atr_range :=
      if listMax atr_values ≠ listMin atr_values then
        listMax atr_values - listMin atr_values
      else 1
    let price_change_range :=
      if listMax price_change_values ≠ listMin price_change_values then
        listMax price_change_values - listMin price_change_values
      else 1
    let pair_scores :=
      pair_scores_of thresholds (listMin atr_values) atr_range
        (listMin price_change_values) price_change_range pair_volatility
    if pair_scores.isEmpty then []
    else select_loop (List.insertionSort selRel pair_scores) [] []

/-- Two candidates share no currency: bases differ, quotes differ, and
no base coincides with a quote. -/
def noSharedCurrency (a b : ScoredPair) : Prop :=
  baseOf a.symbol ≠ baseOf b.symbol ∧ baseOf a.symbol ≠ quoteOf b.symbol ∧
    quoteOf a.symbol ≠ baseOf b.symbol ∧ quoteOf a.symbol ≠ quoteOf b.symbol

theorem select_loop_pairwise (pairs : List ScoredPair) :
    ∀ (selected : List ScoredPair) (used : List (List Char)),
      (∀ q ∈ selected, baseOf q.symbol ∈ used ∧ quoteOf q.symbol ∈ used) →
      List.Pairwise noSharedCurrency selected →
      List.Pairwise noSharedCurrency (select_loop pairs selected used) := by
  induction pairs with
  | nil =>
      intro selected used _ hpw
      simpa [select_loop] using hpw
  | cons p rest ih =>
      intro selected used hinv hpw
      rw [select_loop]
      split
      · exact hpw
      · split
        · next hmem =>
            apply ih
            · intro q hq
              rcases List.mem_append.mp hq with hq | hq
              · have h := hinv q hq
                exact ⟨List.mem_cons_of_mem _ (List.mem_cons_of_mem _ h.1),
                       List.mem_cons_of_mem _ (List.mem_cons_of_mem _ h.2)⟩
              · have : q = p := by simpa using hq
                subst this
                exact ⟨List.mem_cons_self _ _,
                       List.mem_cons_of_mem _ (List.mem_cons_self _ _)⟩
            · rw [List.pairwise_append]
              refine ⟨hpw, List.pairwise_singleton _ _, ?_⟩
              intro a ha b hb
              have hb' : b = p := by simpa using hb
              subst hb'
              have h := hinv a ha
              refine ⟨?_, ?_, ?_, ?_⟩
              · intro he; exact hmem.1 (he ▸ h.1)
              · intro he; exact hmem.2 (he ▸ h.1)
              · intro he; exact hmem.1 (he ▸ h.2)
              · intro he; exact hmem.2 (he ▸ h.2)
        · exact ih selected used hinv hpw

/-- Every run of `select_top_three_pairs` is either the early empty
return or a greedy walk over the sorted score list built from the whole
map with some normalization parameters. -/
theorem select_top_three_pairs_shape (pv : MetricsMap) (t : Thresholds) :
    select_top_three_pairs pv t = [] ∨
    ∃ mna ra mnp rp : ℚ, select_top_three_pairs pv t =
      select_loop (List.insertionSort selRel (pair_scores_of t mna ra mnp rp pv)) [] [] := by
  simp only [select_top_three_pairs]
  repeat' split
  all_goals first
    | exact Or.inl rfl
    | exact Or.inr ⟨_, _, _, _, rfl⟩

/-- C5: no two candidates returned by `select_top_three_pairs` share a
base or quote currency. -/
theorem select_top_three_pairs_no_shared_currency (pv : MetricsMap) (t : Thresholds) :
    List.Pairwise noSharedCurrency (select_top_three_pairs pv t) := by
  rcases select_top_three_pairs_shape pv t with h | ⟨mna, ra, mnp, rp, h⟩ <;> rw [h]
  · exact List.Pairwise.nil
  · exact select_loop_pairwise _ _ _ (by simp) List.Pairwise.nil

theorem select_loop_length_le (pairs : List ScoredPair) :
    ∀ (selected : List ScoredPair) (used : List (List Char)),
      selected.length ≤ 3 → (select_loop pairs selected used).length ≤ 3 := by
  induction pairs with
  | nil =>
      intro selected used h
      simpa [select_loop] using h
  | cons p rest ih =>
      intro selected used h
      rw [select_loop]
      split
      · exact h
      · next hlt =>
          split
          · exact ih _ _ (by simp; omega)
          · exact ih _ _ h

theorem select_loop_mem (pairs : List ScoredPair) :
    ∀ (selected : List ScoredPair) (used : List (List Char)) (q : ScoredPair),
      q ∈ select_loop pairs selected used → q ∈ selected ∨ q ∈ pairs := by
  induction pairs with
  | nil =>
      intro selected used q hq
      exact Or.inl (by simpa [select_loop] using hq)
  | cons p rest ih =>
      intro selected used q hq
      rw [select_loop] at hq
      split at hq
      · exact Or.inl hq
      · split at hq
        · rcases ih _ _ _ hq with h | h
          · rcases List.mem_append.mp h with h | h
            · exact Or.inl h
            · have : q = p := by simpa using h
              subst this
              exact Or.inr (List.mem_cons_self _ _)
          · exact Or.inr (List.mem_cons_of_mem _ h)
        · rcases ih _ _ _ hq with h | h
          · exact Or.inl h
          · exact Or.inr (List.mem_cons_of_mem _ h)

theorem pair_scores_of_mem (t : Thresholds) (min_atr atr_range min_pc pc_range : ℚ) :
    ∀ (m : MetricsMap) (q : ScoredPair),
      q ∈ pair_scores_of t min_atr atr_range min_pc pc_range m →
      t.atr ≤ q.atr ∨ t.price_change ≤ |q.price_change| := by
  intro m
  induction m with
  | nil => intro q hq; simp [pair_scores_of] at hq
  | cons e rest ih =>
      intro q hq
      obtain ⟨symbol, met⟩ := e
      rw [pair_scores_of] at hq
      split at hq
      · exact ih q hq
      · next hpass =>
          rcases List.mem_cons.mp hq with h | h
          · subst h
            rcases not_and_or.mp hpass with h | h
            · exact Or.inl (not_lt.mp h)
            · exact Or.inr (not_lt.mp h)
          · exact ih q h

/-- C6: `select_top_three_pairs` returns at most three candidates, and
every returned candidate cleared the threshold filter (ATR at least the
ATR threshold, or absolute price change at least the price-change
threshold). -/
theorem select_top_three_pairs_bounded_and_filtered (pv : MetricsMap) (t : Thresholds) :
    (select_top_three_pairs pv t).length ≤ 3 ∧
    ∀ q ∈ select_top_three_pairs pv t,
      t.atr ≤ q.atr ∨ t.price_change ≤ |q.price_change| := by
  rcases select_top_three_pairs_shape pv t with h | ⟨mna, ra, mnp, rp, h⟩ <;> rw [h]
  · simp
  · constructor
    · exact select_loop_length_le _ _ _ (by simp)
    · intro q hq
      rcases select_loop_mem _ _ _ _ hq with h2 | h2
      · simp at h2
      · exact pair_scores_of_mem _ _ _ _ _ _ _ ((List.mem_insertionSort selRel).mp h2)

/-- Closed witness for C6 on a one-instrument map. -/
theorem select_top_three_pairs_bounded_and_filtered_witness :
    (select_top_three_pairs [(("EURUSDm"), ⟨2, 0, false, false, false, false⟩)] ⟨1, 1⟩).length ≤ 3 ∧
    ((⟨1, 1⟩ : Thresholds).atr ≤ (⟨("EURUSDm"), 0, 2, 0, false⟩ : ScoredPair).atr ∨
      (⟨1, 1⟩ : Thresholds).price_change ≤ |(⟨("EURUSDm"), 0, 2, 0, false⟩ : ScoredPair).price_change|) :=
  ⟨(select_top_three_pairs_bounded_and_filtered
      [(("EURUSDm"), ⟨2, 0, false, false, false, false⟩)] ⟨1, 1⟩).1,
   (select_top_three_pairs_bounded_and_filtered
      [(("EURUSDm"), ⟨2, 0, false, false, false, false⟩)] ⟨1, 1⟩).2
     ⟨("EURUSDm"), 0, 2, 0, false⟩
     (by norm_num [select_top_three_pairs, listMin, listMax, pair_scores_of, scoreOf,
        selRel, List.insertionSort, List.orderedInsert, select_loop])⟩

/-! Claim C1: which set feeds the min–max normalization. -/

/-- The greedy walk as worded in the spec (§4.4 step 5), with an explicit
`max_picks` parameter. -/
def spec_greedy (max_picks : Nat) :
    List ScoredPair → List ScoredPair → List (List Char) → List ScoredPair
  | [], selected, _ => selected
  | pair :: rest, selected, used =>
      if max_picks ≤ selected.length then selected
      else if baseOf pair.symbol ∉ used ∧ quoteOf pair.symbol ∉ used then
        spec_greedy max_picks rest (selected ++ [pair])
          (baseOf pair.symbol :: quoteOf pair.symbol :: used)
      else spec_greedy max_picks rest selected used

/-- Modelled from the spec as read by claim C1: the five-step `select`
pipeline with the min–max normalization of volatility and absolute price
change computed across the FILTERED set only (range taken as 1 when all
values coincide). -/
def select_spec_filtered_norm (pv : MetricsMap) (t : Thresholds) : List ScoredPair :=
  if pv.isEmpty then []
  else
    let filtered := pv.filter
      (fun e => !(decide (e.2.atr < t.atr) && decide (|e.2.price_change| < t.price_change)))
    let atr_values := filtered.map (fun e => e.2.atr)
    let price_change_values := filtered.map (fun e => |e.2.price_change|)
    let atr_range :=
      if listMax atr_values ≠ listMin atr_values then
        listMax atr_values - listMin atr_values
      else 1
    let price_change_range :=
      if listMax price_change_values ≠ listMin price_change_values then
        listMax price_change_values - listMin price_change_values
      else 1
    let scored := filtered.map
      (fun e => (⟨e.1, scoreOf (listMin atr_values) atr_range
        (listMin price_change_values) price_change_range e.2,
        e.2.atr, e.2.price_change, e.2.smart_money⟩ : ScoredPair))
    spec_greedy 3 (List.insertionSort selRel scored) [] []

/-- The same five-step pipeline with the normalization computed across
the WHOLE input metrics map (the amended reading of C1). -/
def select_spec_whole_norm (pv : MetricsMap) (t : Thresholds) : List ScoredPair :=
  if pv.isEmpty then []
  else
    let atr_values := pv.map (fun e => e.2.atr)
    let price_change_values := pv.map (fun e => |e.2.price_change|)
    let atr_range :=
      if listMax atr_values ≠ listMin atr_values then
        listMax atr_values - listMin atr_values
      else 1
    let price_change_range :=
      if listMax price_change_values ≠ listMin price_change_values then
        listMax price_change_values - listMin price_change_values
      else 1
    let filtered := pv.filter
      (fun e => !(decide (e.2.atr < t.atr) && decide (|e.2.price_change| < t.price_change)))
    let scored := filtered.map
      (fun e => (⟨e.1, scoreOf (listMin atr_values) atr_range
        (listMin price_change_values) price_change_range e.2,
        e.2.atr, e.2.price_change, e.2.smart_money⟩ : ScoredPair))
    spec_greedy 3 (List.insertionSort selRel scored) [] []

theorem spec_greedy_three (l : List ScoredPair) :
    ∀ (selected : List ScoredPair) (used : List (List Char)),
      spec_greedy 3 l selected used = select_loop l selected used := by
  induction l with
  | nil => intro selected used; rfl
  | cons p rest ih =>
      intro selected used
      rw [spec_greedy, select_loop]
      split
      · rfl
      · split
        · exact ih _ _
        · exact ih _ _

/-- The fused filter-and-score loop of the source equals filtering first
and mapping the score afterwards. -/
theorem pair_scores_of_eq_filter_map (t : Thresholds) (mna ra mnp rp : ℚ) :
    ∀ m : MetricsMap,
      pair_scores_of t mna ra mnp rp m =
        (m.filter
          (fun e => !(decide (e.2.atr < t.atr) && decide (|e.2.price_change| < t.price_change)))).map
          (fun e => (⟨e.1, scoreOf mna ra mnp rp e.2,
            e.2.atr, e.2.price_change, e.2.smart_money⟩ : ScoredPair)) := by
  intro m
  induction m with
  | nil => rfl
  | cons e rest ih =>
      obtain ⟨symbol, met⟩ := e
      rw [pair_scores_of]
      by_cases hc : met.atr < t.atr ∧ |met.price_change| < t.price_change
      · rw [if_pos hc, List.filter_cons]
        have hb : (!(decide (met.atr < t.atr) && decide (|met.price_change| < t.price_change)))
            = false := by
          simp [hc.1, hc.2]
        simp only [hb, Bool.false_eq_true, if_neg, ite_false]
        exact ih
      · rw [if_neg hc, List.filter_cons]
        have hb : (!(decide (met.atr < t.atr) && decide (|met.price_change| < t.price_change)))
            = true := by
          rcases not_and_or.mp hc with h | h <;> simp [h]
        simp only [hb, if_pos, ite_true, List.map_cons]
        exact congrArg _ ih

theorem isEmpty_guard_redundant (X : List ScoredPair) :
    (if X.isEmpty then ([] : List ScoredPair)
     else select_loop (List.insertionSort selRel X) [] []) =
      select_loop (List.insertionSort selRel X) [] [] := by
  split
  · next h =>
      rw [List.isEmpty_iff.mp h]
      rfl
  · rfl

/-- C1 (amended): `select_top_three_pairs` coincides with the spec-worded
pipeline whose min–max normalization is computed across the WHOLE input
metrics map (not the filtered set). -/
theorem select_top_three_pairs_eq_spec_whole_norm (pv : MetricsMap) (t : Thresholds) :
    select_top_three_pairs pv t = select_spec_whole_norm pv t := by
  rw [select_top_three_pairs, select_spec_whole_norm]
  by_cases hemp : pv.isEmpty
  · rw [if_pos hemp, if_pos hemp]
  · rw [if_neg hemp, if_neg hemp]
    simp only [pair_scores_of_eq_filter_map, spec_greedy_three]
    exact isEmpty_guard_redundant _

/-- C1 (counterexample): on a three-instrument map where the instrument
that fails the filter carries the extreme ATR, the source's selection
differs from the filtered-set-normalization pipeline (the second
candidate keeps score 5/12 instead of 0). -/
theorem select_norm_counterexample :
    select_top_three_pairs
        [(("AAABBB"), ⟨10, 0, false, false, false, false⟩),
         (("CCCDDD"), ⟨12, 0, false, false, false, false⟩),
         (("EEEFFF"), ⟨0, 0, false, false, false, false⟩)] ⟨10, 10⟩ ≠
      select_spec_filtered_norm
        [(("AAABBB"), ⟨10, 0, false, false, false, false⟩),
         (("CCCDDD"), ⟨12, 0, false, false, false, false⟩),
         (("EEEFFF"), ⟨0, 0, false, false, false, false⟩)] ⟨10, 10⟩ := by
  have hbA : baseOf ("AAABBB") = ['A', 'A', 'A'] := rfl
  have hqA : quoteOf ("AAABBB") = ['B', 'B', 'B'] := rfl
  have hbC : baseOf ("CCCDDD") = ['C', 'C', 'C'] := rfl
  have hqC : quoteOf ("CCCDDD") = ['D', 'D', 'D'] := rfl
  have h1 : (['A', 'A', 'A'] : List Char) ≠ ['C', 'C', 'C'] := by decide
  have h2 : (['A', 'A', 'A'] : List Char) ≠ ['D', 'D', 'D'] := by decide
  have h3 : (['B', 'B', 'B'] : List Char) ≠ ['C', 'C', 'C'] := by decide
  have h4 : (['B', 'B', 'B'] : List Char) ≠ ['D', 'D', 'D'] := by decide
  norm_num [select_top_three_pairs, select_spec_filtered_norm, listMin, listMax,
    pair_scores_of, scoreOf, selRel, List.insertionSort, List.orderedInsert,
    select_loop, spec_greedy, hbA, hqA, hbC, hqC, h1, h2, h3, h4,
    ScoredPair.mk.injEq]

/-! Notifications (`check_notifications`). -/

/-- A notification message, abstracted structurally: the constructor and
its arguments determine the emitted f-string of `Scanner.py` (numeric
formatting to 5/2 decimal places is presentation only). -/
inductive Notification where
  | highActivity (symbol : String) (atr : ℚ) (price_change : ℚ)
  | smartMoney (symbol : String) (reversal_type : String)
  | note (count : Nat)
deriving DecidableEq, Repr

/-- One entry of the `high_activity_pairs` list. -/
structure HighActivityPair where
  symbol : String
  atr : ℚ
  price_change : ℚ
deriving DecidableEq, Repr

instance : Inhabited HighActivityPair := ⟨⟨"", 0, 0⟩⟩

/-- The collection loop of `check_notifications`: keep every instrument
whose ATR or absolute price change strictly exceeds its threshold. -/
def high_activity_of (t : Thresholds) : MetricsMap → List HighActivityPair
  | [] => []
  | (symbol, m) :: rest =>
      if t.atr < m.atr ∨ t.price_change < |m.price_change| then
        ⟨symbol, m.atr, m.price_change⟩ :: high_activity_of t rest
      else high_activity_of t rest

/-- Sort order of `high_activity_pairs.sort(key=atr, reverse=True)`. -/
def atrRel (a b : HighActivityPair) : Prop := b.atr ≤ a.atr

instance : DecidableRel atrRel := fun a b => by unfold atrRel; infer_instance

instance : IsTotal HighActivityPair atrRel := ⟨fun a b => le_total b.atr a.atr⟩

instance : IsTrans HighActivityPair atrRel := ⟨fun _ _ _ hab hbc => hbc.trans hab⟩

/-- The ATR-sorted high-activity list. -/
def sorted_high (pv : MetricsMap) (t : Thresholds) : List HighActivityPair :=
  List.insertionSort atrRel (high_activity_of t pv)

/-- Cutoff `third_atr`: the ATR of the third-ranked pair when at least three
exist, else the ATR of the last (least volatile) pair. -/
def third_atr_of (l : List HighActivityPair) : ℚ :=
  if 3 ≤ l.length then (l.getD 2 default).atr else (l.getLastD default).atr

/-- The selection loop of `check_notifications`: append while fewer than
three are selected or the pair still ties the third-ranked ATR; `break`
otherwise. -/
def selection_loop (third : ℚ) : List HighActivityPair → Nat → List HighActivityPair
  | [], _ => []
  | p :: rest, k =>
      if k < 3 ∨ third ≤ p.atr then p :: selection_loop third rest (k + 1)
      else []

/-- List `selected_high_activity` of `check_notifications`. -/
def selected_high_activity_of (pv : MetricsMap) (t : Thresholds) : List HighActivityPair :=
  if (sorted_high pv t).isEmpty then []
  else selection_loop (third_atr_of (sorted_high pv t)) (sorted_high pv t) 0

/-- The smart-money alert sequence: one alert per instrument flagged
`smart_money`, bullish label taking priority over bearish. -/
def smart_money_alerts (pv : MetricsMap) : List Notification :=
  pv.filterMap (fun e =>
    if e.2.smart_money then
      some (Notification.smartMoney e.1
        (if e.2.bullish_reversal then ("Bullish") else ("Bearish")))
    else none)

/-- Source `check_notifications(pair_volatility, thresholds)` from `Scanner.py`:
activity alerts first, then smart-money alerts, then the shortfall note
when fewer than three high-activity pairs were selected. -/
def check_notifications (pv : MetricsMap) (t : Thresholds) : List Notification :=
  ((selected_high_activity_of pv t).map fun p =>
    Notification.highActivity p.symbol p.atr p.price_change)
  ++ smart_money_alerts pv
  ++ (if (selected_high_activity_of pv t).length < 3 then
        [Notification.note (selected_high_activity_of pv t).length]
      else [])

theorem sorted_atr_get_le (l : List HighActivityPair) (hs : List.Sorted atrRel l)
    {i j : Nat} (hi : i < l.length) (hj : j < l.length) (hij : i ≤ j) :
    (l.get ⟨j, hj⟩).atr ≤ (l.get ⟨i, hi⟩).atr := by
  rcases eq_or_lt_of_le hij with h | h
  · subst h
    exact le_refl _
  · exact hs.rel_get_of_lt (show (⟨i, hi⟩ : Fin l.length) < ⟨j, hj⟩ from h)

theorem third_le_get (l : List HighActivityPair) (hs : List.Sorted atrRel l) (hne : l ≠ [])
    {i : Nat} (hi : i < l.length) (h3 : i < 3) :
    third_atr_of l ≤ (l.get ⟨i, hi⟩).atr := by
  rw [third_atr_of]
  split
  · next hlen =>
      have h2 : (2 : Nat) < l.length := by omega
      rw [List.getD_eq_get l default h2]
      exact sorted_atr_get_le l hs hi h2 (by omega)
  · next hlen =>
      have hl1 : l.length - 1 < l.length := by
        have := List.length_pos.mpr hne
        omega
      rw [List.getLastD_eq_getLast?, List.getLast?_eq_getLast l hne, Option.getD_some,
        List.getLast_eq_get l hne]
      exact sorted_atr_get_le l hs hi hl1 (by omega)

theorem selection_loop_eq_takeWhile (third : ℚ) :
    ∀ (l : List HighActivityPair) (k : Nat),
      (∀ i (hi : i < l.length), i + k < 3 → third ≤ (l.get ⟨i, hi⟩).atr) →
      selection_loop third l k = l.takeWhile (fun p => decide (third ≤ p.atr)) := by
  intro l
  induction l with
  | nil => intro k _; rfl
  | cons p rest ih =>
      intro k hpre
      rw [selection_loop]
      by_cases hp : third ≤ p.atr
      · rw [if_pos (Or.inr hp)]
        have ht : List.takeWhile (fun q => decide (third ≤ q.atr)) (p :: rest)
            = p :: List.takeWhile (fun q => decide (third ≤ q.atr)) rest := by
          simp [List.takeWhile_cons, hp]
        rw [ht]
        refine congrArg _ (ih (k + 1) ?_)
        intro i hi h3
        exact hpre (i + 1) (by simp only [List.length_cons]; omega) (by omega)
      · by_cases hk : k < 3
        · exact absurd (hpre 0 (by simp) (by omega)) hp
        · rw [if_neg (not_or.mpr ⟨hk, hp⟩)]
          simp [List.takeWhile_cons, hp]

theorem takeWhile_eq_filter_of_sorted (third : ℚ) :
    ∀ l : List HighActivityPair, List.Sorted atrRel l →
      l.takeWhile (fun p => decide (third ≤ p.atr)) =
        l.filter (fun p => decide (third ≤ p.atr)) := by
  intro l
  induction l with
  | nil => intro _; rfl
  | cons p rest ih =>
      intro hs
      by_cases hp : third ≤ p.atr
      · simp only [List.takeWhile_cons, List.filter_cons, decide_eq_true hp, if_pos]
        exact congrArg _ (ih hs.of_cons)
      · have hrest : rest.filter (fun q => decide (third ≤ q.atr)) = [] := by
          rw [List.filter_eq_nil_iff]
          intro q hq
          have hq' : q.atr ≤ p.atr := (List.pairwise_cons.mp hs).1 q hq
          simp only [decide_eq_true_eq]
          exact fun hc => hp (le_trans hc hq')
        simp [List.takeWhile_cons, List.filter_cons, hp, hrest]

theorem le_length_takeWhile (p : HighActivityPair → Bool) :
    ∀ (l : List HighActivityPair) (n : Nat), n ≤ l.length →
      (∀ i (hi : i < l.length), i < n → p (l.get ⟨i, hi⟩) = true) →
      n ≤ (l.takeWhile p).length := by
  intro l
  induction l with
  | nil =>
      intro n hn _
      simpa using hn
  | cons a rest ih =>
      intro n hn hcond
      cases n with
      | zero => exact Nat.zero_le _
      | succ m =>
          have ha : p a = true := hcond 0 (by simp) (by omega)
          rw [List.takeWhile_cons, if_pos ha, List.length_cons]
          have hrec : m ≤ (List.takeWhile p rest).length := by
            apply ih m (by simp only [List.length_cons] at hn; omega)
            intro i hi him
            exact hcond (i + 1) (by simp only [List.length_cons]; omega) (by omega)
          omega

theorem mem_high_activity_of (t : Thresholds) :
    ∀ (pv : MetricsMap) (symbol : String) (m : InstrumentMetrics),
      (symbol, m) ∈ pv → (t.atr < m.atr ∨ t.price_change < |m.price_change|) →
      (⟨symbol, m.atr, m.price_change⟩ : HighActivityPair) ∈ high_activity_of t pv := by
  intro pv
  induction pv with
  | nil => intro s m h _; simp at h
  | cons e rest ih =>
      intro s m hmem hq
      obtain ⟨sym, met⟩ := e
      rw [high_activity_of]
      rcases List.mem_cons.mp hmem with h | h
      · cases h
        rw [if_pos hq]
        exact List.mem_cons_self _ _
      · split
        · exact List.mem_cons_of_mem _ (ih s m h hq)
        · exact ih s m h hq

/-- C7: as soon as one instrument strictly exceeds a threshold, the
selected activity set has at least `min 3 (#qualifying)` entries, equals
exactly the ATR-sorted qualifying pairs whose ATR still reaches the
third-ranked cutoff (ties included), stays sorted by descending ATR, and
the notification list emits those activity alerts before all smart-money
alerts, with the shortfall note last (present iff fewer than three were
selected). -/
theorem check_notifications_spec (pv : MetricsMap) (t : Thresholds)
    (h : ∃ e ∈ pv, t.atr < e.2.atr ∨ t.price_change < |e.2.price_change|) :
    min 3 (high_activity_of t pv).length ≤ (selected_high_activity_of pv t).length ∧
    selected_high_activity_of pv t =
      (sorted_high pv t).filter
        (fun p => decide (third_atr_of (sorted_high pv t) ≤ p.atr)) ∧
    List.Pairwise atrRel (selected_high_activity_of pv t) ∧
    check_notifications pv t =
      ((selected_high_activity_of pv t).map fun p =>
        Notification.highActivity p.symbol p.atr p.price_change)
      ++ smart_money_alerts pv
      ++ (if (selected_high_activity_of pv t).length < 3 then
            [Notification.note (selected_high_activity_of pv t).length]
          else []) := by
  obtain ⟨e, hmem, hq⟩ := h
  have hHne : high_activity_of t pv ≠ [] :=
    List.ne_nil_of_mem (mem_high_activity_of t pv e.1 e.2 (by simpa using hmem) hq)
  have hlenS : (sorted_high pv t).length = (high_activity_of t pv).length :=
    List.length_insertionSort atrRel _
  have hSne : sorted_high pv t ≠ [] := by
    intro hc
    have h0 : (sorted_high pv t).length = 0 := by rw [hc]; rfl
    exact hHne (List.length_eq_zero.mp (hlenS ▸ h0))
  have hsorted : List.Sorted atrRel (sorted_high pv t) :=
    List.sorted_insertionSort atrRel _
  have hsel : selected_high_activity_of pv t =
      selection_loop (third_atr_of (sorted_high pv t)) (sorted_high pv t) 0 := by
    rw [selected_high_activity_of,
      if_neg (fun hc => hSne (List.isEmpty_iff.mp hc))]
  have hloop : selection_loop (third_atr_of (sorted_high pv t)) (sorted_high pv t) 0 =
      (sorted_high pv t).takeWhile
        (fun p => decide (third_atr_of (sorted_high pv t) ≤ p.atr)) := by
    apply selection_loop_eq_takeWhile
    intro i hi h3
    exact third_le_get _ hsorted hSne hi (by omega)
  have htf : (sorted_high pv t).takeWhile
        (fun p => decide (third_atr_of (sorted_high pv t) ≤ p.atr)) =
      (sorted_high pv t).filter
        (fun p => decide (third_atr_of (sorted_high pv t) ≤ p.atr)) :=
    takeWhile_eq_filter_of_sorted _ _ hsorted
  refine ⟨?_, ?_, ?_, rfl⟩
  · rw [hsel, hloop, ← hlenS]
    apply le_length_takeWhile _ _ _ (Nat.min_le_right 3 _)
    intro i hi h3
    exact decide_eq_true (third_le_get _ hsorted hSne hi (Nat.lt_min.mp h3).1)
  · rw [hsel, hloop, htf]
  · rw [hsel, hloop, htf]
    exact List.Pairwise.sublist (List.filter_sublist _) hsorted

/-- Closed witness for C7 on a one-instrument map that exceeds the ATR
threshold. -/
theorem check_notifications_spec_witness :
    min 3 (high_activity_of ⟨1, 1⟩ [(("EURUSDm"), ⟨10, 0, false, false, false, false⟩)]).length ≤
      (selected_high_activity_of [(("EURUSDm"), ⟨10, 0, false, false, false, false⟩)] ⟨1, 1⟩).length :=
  (check_notifications_spec [(("EURUSDm"), ⟨10, 0, false, false, false, false⟩)] ⟨1, 1⟩
    ⟨(("EURUSDm"), ⟨10, 0, false, false, false, false⟩), by simp, by norm_num⟩).1

/-- C8: on an empty metrics map the selector returns the empty shortlist
and the notifier returns exactly the shortfall note reporting zero
high-activity pairs; neither fails. -/
theorem empty_input_never_fails (t : Thresholds) :
    select_top_three_pairs [] t = [] ∧
    check_notifications [] t = [Notification.note 0] :=
  ⟨rfl, rfl⟩

/-! Claim C9: the frame effect of `calculate_atr` on its input DataFrame.

`calculate_atr` assigns five derived columns to the DataFrame object it
receives (`df['high_low'] = …`, …, `df['atr'] = …`).  To talk about that
effect, the DataFrame is modelled as an insertion-ordered name→column
map with `NaN`-aware cells, and `calculate_atr_df` returns the frame as
it is left behind together with the returned scalar. -/

/-- A pandas column: one optional rational per row (`none` = `NaN`). -/
abbrev Column := List (Option ℚ)

/-- A DataFrame: insertion-ordered association of column names. -/
structure DataFrame where
  cols : List (String × Column)
deriving DecidableEq, Repr

/-- Read a column (a missing name reads as an empty column; the claims
only read names that exist). -/
def DataFrame.col (df : DataFrame) (name : String) : Column :=
  (df.cols.lookup name).getD []

/-- Pandas column assignment on the underlying map: overwrite in place
when the name exists, append at the end otherwise. -/
def setColAux (name : String) (v : Column) : List (String × Column) → List (String × Column)
  | [] => [(name, v)]
  | (k, w) :: rest => if k = name then (k, v) :: rest else (k, w) :: setColAux name v rest

/-- Assignment `df[name] = v`. -/
def DataFrame.setCol (df : DataFrame) (name : String) (v : Column) : DataFrame :=
  ⟨setColAux name v df.cols⟩

/-- Elementwise binary operation with `NaN` propagation. -/
def optMap2 (f : ℚ → ℚ → ℚ) : Option ℚ → Option ℚ → Option ℚ
  | some a, some b => some (f a b)
  | _, _ => none

/-- Pandas `shift(1)`: push a `NaN` in front, drop the last entry. -/
def shift1 : Column → Column
  | [] => []
  | xs => none :: xs.dropLast

/-- The `NaN`-skipping maximum of two cells (pandas `max(axis=1)`). -/
def skipnaMax2 : Option ℚ → Option ℚ → Option ℚ
  | some a, some b => some (max a b)
  | some a, none => some a
  | none, some b => some b
  | none, none => none

/-- The `NaN`-skipping maximum of a three-column row. -/
def skipnaMax3 (a b c : Option ℚ) : Option ℚ := skipnaMax2 a (skipnaMax2 b c)

/-- Elementwise ternary zip. -/
def zipWith3 (f : Option ℚ → Option ℚ → Option ℚ → Option ℚ) :
    Column → Column → Column → Column
  | a :: as, b :: bs, c :: cs => f a b c :: zipWith3 f as bs cs
  | _, _, _ => []

/-- Pandas `rolling(window=w).mean()`: `NaN` until `w` rows are available or
when the window contains a `NaN`, else the window mean. -/
def rollingMeanCol (w : Nat) (xs : Column) : Column :=
  (List.range xs.length).map fun i =>
    if i + 1 < w ∨ w = 0 then none
    else
      let window := (xs.take (i + 1)).drop (i + 1 - w)
      if window.all Option.isSome then
        some ((window.filterMap id).sum / (w : ℚ))
      else none

/-- Source `calculate_atr(df, period)` at DataFrame level: the five column
assignments the source performs on its input frame, plus the returned
`df['atr'].iloc[-1]` (outer `none` = empty frame, inner `none` = `NaN`). -/
def calculate_atr_df (df : DataFrame) (period : Nat) : DataFrame × Option (Option ℚ) :=
  let df1 := df.setCol ("high_low")
    (List.zipWith (optMap2 (fun a b => a - b)) (df.col ("high")) (df.col ("low")))
  let df2 := df1.setCol ("high_prev_close")
    (List.zipWith (optMap2 (fun a b => |a - b|)) (df1.col ("high")) (shift1 (df1.col ("close"))))
  let df3 := df2.setCol ("low_prev_close")
    (List.zipWith (optMap2 (fun a b => |a - b|)) (df2.col ("low")) (shift1 (df2.col ("close"))))
  let df4 := df3.setCol ("true_range")
    (zipWith3 skipnaMax3 (df3.col ("high_low")) (df3.col ("high_prev_close"))
      (df3.col ("low_prev_close")))
  let df5 := df4.setCol ("atr") (rollingMeanCol period (df4.col ("true_range")))
  (df5, (df5.col ("atr")).getLast?)

theorem lookup_setColAux (k name : String) (v : Column) (hne : name ≠ k) :
    ∀ l : List (String × Column),
      List.lookup name (setColAux k v l) = List.lookup name l := by
  intro l
  induction l with
  | nil => simp [setColAux, List.lookup, beq_eq_false_iff_ne.mpr hne]
  | cons e rest ih =>
      obtain ⟨k', w⟩ := e
      rw [setColAux]
      by_cases hk : k' = k
      · subst hk
        rw [if_pos rfl]
        simp [List.lookup, beq_eq_false_iff_ne.mpr hne]
      · rw [if_neg hk]
        by_cases hn : name = k'
        · subst hn
          simp [List.lookup]
        · simp [List.lookup, beq_eq_false_iff_ne.mpr hn, ih]

theorem col_setCol_ne (df : DataFrame) (k name : String) (v : Column) (hne : name ≠ k) :
    (df.setCol k v).col name = df.col name := by
  unfold DataFrame.setCol DataFrame.col
  rw [lookup_setColAux k name v hne]

/-- C9 (amended): `calculate_atr` leaves every market-data column of its
input frame (`open`, `high`, `low`, `close`, `tick_volume`, `time`)
unchanged — but it does write the five derived scratch columns into the
frame, so the frame as a whole is not left untouched. -/
theorem calculate_atr_df_preserves_data_columns (df : DataFrame) (period : Nat) :
    ((calculate_atr_df df period).1.col ("open") = df.col ("open")) ∧
    ((calculate_atr_df df period).1.col ("high") = df.col ("high")) ∧
    ((calculate_atr_df df period).1.col ("low") = df.col ("low")) ∧
    ((calculate_atr_df df period).1.col ("close") = df.col ("close")) ∧
    ((calculate_atr_df df period).1.col ("tick_volume") = df.col ("tick_volume")) ∧
    ((calculate_atr_df df period).1.col ("time") = df.col ("time")) := by
  refine ⟨?_, ?_, ?_, ?_, ?_, ?_⟩ <;>
  · simp only [calculate_atr_df]
    rw [col_setCol_ne, col_setCol_ne, col_setCol_ne, col_setCol_ne, col_setCol_ne]
    all_goals decide

/-- C9 (counterexample): on a one-row frame, `calculate_atr` does not
leave its input unchanged — the frame it leaves behind carries ten
columns where the input had five. -/
theorem calculate_atr_df_mutates_input :
    (calculate_atr_df
        ⟨[(("open"), [some 1]), (("high"), [some 3]), (("low"), [some 1]),
          (("close"), [some 2]), (("tick_volume"), [some 10])]⟩ 14).1 ≠
      ⟨[(("open"), [some 1]), (("high"), [some 3]), (("low"), [some 1]),
        (("close"), [some 2]), (("tick_volume"), [some 10])]⟩ := by
  intro h
  have h10 : (calculate_atr_df
      ⟨[(("open"), [some 1]), (("high"), [some 3]), (("low"), [some 1]),
        (("close"), [some 2]), (("tick_volume"), [some 10])]⟩ 14).1.cols.length = 10 := rfl
  rw [h] at h10
  exact absurd h10 (by decide)

/-! Currency aggregation (`rank_currencies`). -/

/-- One instrument's metrics entry as `rank_currencies` stores it: the
ATR may be the `NaN` of a short history (`Option ℚ`), and the price
change is a numpy float that may be non-finite after a zero first close
(`PyFloat`) — both flow on silently. -/
structure PairMetrics where
  atr : Option ℚ
  price_change : PyFloat
  smart_money : Bool
  volume_spike : Bool
  bullish_reversal : Bool
  bearish_reversal : Bool
deriving DecidableEq, Repr

/-- One `currency_volatility` entry before averages are computed. -/
structure CurrencyEntry where
  total_atr : Option ℚ
  count : Nat
deriving DecidableEq, Repr

/-- One `currency_volatility` entry after `avg_atr` has been added. -/
structure CurrencyStats where
  total_atr : Option ℚ
  count : Nat
  avg_atr : Option ℚ
deriving DecidableEq, Repr

/-- Float addition with `NaN` propagation. -/
def addNaN : Option ℚ → Option ℚ → Option ℚ
  | some a, some b => some (a + b)
  | _, _ => none

/-- One `currency_volatility` update: create the entry with zero totals
if absent, then add the ATR and bump the sample count (Python dict:
in-place update keeps the position, a new key is appended). -/
def updateCurrency : List (List Char × CurrencyEntry) → List Char → Option ℚ →
    List (List Char × CurrencyEntry)
  | [], c, atr => [(c, ⟨addNaN (some 0) atr, 1⟩)]
  | (k, e) :: rest, c, atr =>
      if k = c then (k, ⟨addNaN e.total_atr atr, e.count + 1⟩) :: rest
      else (k, e) :: updateCurrency rest c atr

/-- Assignment `pair_volatility[symbol] = …` (overwrite in place or append). -/
def setPairMetrics : List (String × PairMetrics) → String → PairMetrics →
    List (String × PairMetrics)
  | [], s, m => [(s, m)]
  | (k, e) :: rest, s, m =>
      if k = s then (k, m) :: rest
      else (k, e) :: setPairMetrics rest s m

/-- The per-symbol loop of `rank_currencies`: skip instruments whose
fetch fails, otherwise compute the three metrics (any Python-level
error propagates and aborts the call — the source has no handler) and
charge the ATR to both the base and the quote currency. -/
def rank_loop (fetch : String → Option (List Bar)) :
    List String → List (List Char × CurrencyEntry) → List (String × PairMetrics) →
    Except ScanError (List (List Char × CurrencyEntry) × List (String × PairMetrics))
  | [], cv, pvm => .ok (cv, pvm)
  | symbol :: rest, cv, pvm =>
      match fetch symbol with
      | none => rank_loop fetch rest cv pvm
      | some df =>
          match calculate_atr df 14 with
          | .error e => .error e
          | .ok atr =>
              match calculate_price_change df with
              | .error e => .error e
              | .ok price_change =>
                  match detect_smart_money df 1.5 0.0003 with
                  | none => .error .indexError
                  | some sm =>
                      rank_loop fetch rest
                        (updateCurrency (updateCurrency cv (baseOf symbol) atr)
                          (quoteOf symbol) atr)
                        (setPairMetrics pvm symbol
                          ⟨atr, price_change, sm.smart_money, sm.volume_spike,
                           sm.bullish_reversal, sm.bearish_reversal⟩)

/-- Source `rank_currencies(currency_pairs, timeframe, num_bars)` with the
external fetch injected: builds `currency_volatility` and
`pair_volatility`, then adds `avg_atr = total_atr / count` to every
currency entry.  The final `sorted(…, key=avg_atr, reverse=True)` step
only permutes these entries (its key can be a float `NaN`, which admits
no total order, so the permutation itself is not modelled); the entries,
their counts and the average division are exactly as returned here. -/
def rank_currencies (currency_pairs : List String) (fetch : String → Option (List Bar)) :
    Except ScanError (List (List Char × CurrencyStats) × List (String × PairMetrics)) :=
  match rank_loop fetch currency_pairs [] [] with
  | .error e => .error e
  | .ok (cv, pvm) =>
      .ok (cv.map (fun e => (e.1,
        ⟨e.2.total_atr, e.2.count, e.2.total_atr.map (fun x => x / (e.2.count : ℚ))⟩)), pvm)

theorem updateCurrency_count_pos (c : List Char) (atr : Option ℚ) :
    ∀ l : List (List Char × CurrencyEntry),
      (∀ e ∈ l, 1 ≤ e.2.count) →
      ∀ e ∈ updateCurrency l c atr, 1 ≤ e.2.count := by
  intro l
  induction l with
  | nil =>
      intro _ e he
      have : e = (c, ⟨addNaN (some 0) atr, 1⟩) := by simpa [updateCurrency] using he
      subst this
      exact le_refl 1
  | cons p rest ih =>
      intro hl e he
      obtain ⟨k, ent⟩ := p
      rw [updateCurrency] at he
      split at he
      · rcases List.mem_cons.mp he with h | h
        · subst h
          simp
        · exact hl e (List.mem_cons_of_mem _ h)
      · rcases List.mem_cons.mp he with h | h
        · subst h
          exact hl _ (List.mem_cons_self _ _)
        · exact ih (fun e' he' => hl e' (List.mem_cons_of_mem _ he')) e h

theorem rank_loop_count_pos (fetch : String → Option (List Bar)) :
    ∀ (syms : List String) (cv : List (List Char × CurrencyEntry))
      (pvm : List (String × PairMetrics))
      (cv' : List (List Char × CurrencyEntry)) (pvm' : List (String × PairMetrics)),
      (∀ e ∈ cv, 1 ≤ e.2.count) →
      rank_loop fetch syms cv pvm = .ok (cv', pvm') →
      ∀ e ∈ cv', 1 ≤ e.2.count := by
  intro syms
  induction syms with
  | nil =>
      intro cv pvm cv' pvm' hcv h
      rw [rank_loop] at h
      obtain ⟨rfl, rfl⟩ : cv = cv' ∧ pvm = pvm' := by
        have := Except.ok.inj h
        exact ⟨congrArg Prod.fst this, congrArg Prod.snd this⟩
      exact hcv
  | cons s rest ih =>
      intro cv pvm cv' pvm' hcv h
      rw [rank_loop] at h
      split at h
      · exact ih cv pvm cv' pvm' hcv h
      · split at h
        · exact absurd h (by simp)
        · split at h
          · exact absurd h (by simp)
          · split at h
            · exact absurd h (by simp)
            · refine ih _ _ cv' pvm' ?_ h
              exact updateCurrency_count_pos _ _ _
                (updateCurrency_count_pos _ _ _ hcv)

/-- C10: whenever `rank_currencies` completes, every entry of the
per-currency volatility map carries a sample count of at least 1, so the
`total_atr / count` division computing `avg_atr` never divides by zero. -/
theorem rank_currencies_count_pos (currency_pairs : List String)
    (fetch : String → Option (List Bar))
    (cv : List (List Char × CurrencyStats)) (pvm : List (String × PairMetrics))
    (h : rank_currencies currency_pairs fetch = .ok (cv, pvm)) :
    ∀ c st, (c, st) ∈ cv → 1 ≤ st.count := by
  intro c st hmem
  rw [rank_currencies] at h
  split at h
  · exact absurd h (by simp)
  · next cv0 pvm0 heq =>
      obtain ⟨rfl, rfl⟩ : (cv0.map (fun e => (e.1,
          (⟨e.2.total_atr, e.2.count, e.2.total_atr.map (fun x => x / (e.2.count : ℚ))⟩ :
            CurrencyStats)))) = cv ∧ pvm0 = pvm := by
        have := Except.ok.inj h
        exact ⟨congrArg Prod.fst this, congrArg Prod.snd this⟩
      obtain ⟨e, he, hfe⟩ := List.mem_map.mp hmem
      have hcount : 1 ≤ e.2.count :=
        rank_loop_count_pos fetch currency_pairs [] [] cv0 pvm0 (by simp) heq e he
      have : st.count = e.2.count := by
        have := congrArg Prod.snd hfe
        simp at this
        rw [← this]
      rw [this]
      exact hcount

/-- Evaluation of `detect_smart_money` on a two-bar series: the rolling
volume mean over 14 bars is `NaN`, so `volume_spike` (and with it
`smart_money`) is false, and the reversal flags compare the two bars. -/
theorem detect_two_bars (b1 b2 : Bar) (vt rt : ℚ) :
    detect_smart_money [b1, b2] vt rt =
      some ⟨false, false,
        decide (b2.low ≤ b1.low) && decide (b1.high - rt ≤ b2.close) &&
          decide (b2.open_ < b2.close),
        decide (b1.high ≤ b2.high) && decide (b2.close ≤ b1.low + rt) &&
          decide (b2.close < b2.open_)⟩ := by
  rw [detect_smart_money, dif_pos (show 2 ≤ List.length [b1, b2] by simp)]
  rfl

/-- Closed witness for C10: one fetched instrument over two bars whose
FIRST CLOSE IS ZERO — the degenerate fetch outcome the real program
completes silently, its price change flowing on as `inf` — and both its
currencies end with sample count 1. -/
theorem rank_currencies_count_pos_witness :
    1 ≤ (⟨none, 1, none⟩ : CurrencyStats).count :=
  rank_currencies_count_pos ["EURUSDm"]
    (fun _ => some [⟨0, 2, 0, 0, 5⟩, ⟨1, 2, 0, 1, 5⟩])
    [(['E', 'U', 'R'], ⟨none, 1, none⟩), (['U', 'S', 'D'], ⟨none, 1, none⟩)]
    [(("EURUSDm"), ⟨none, PyFloat.posInf, false, false, false, false⟩)]
    (by
      have hb : baseOf ("EURUSDm") = ['E', 'U', 'R'] := rfl
      have hq : quoteOf ("EURUSDm") = ['U', 'S', 'D'] := rfl
      have hne : (['E', 'U', 'R'] : List Char) ≠ ['U', 'S', 'D'] := by decide
      norm_num [rank_currencies, rank_loop, calculate_atr, calculate_price_change,
        detect_two_bars, updateCurrency, setPairMetrics, addNaN, hb, hq, hne])
    ['E', 'U', 'R'] ⟨none, 1, none⟩ (by simp)

end ForexScanner
